import Mathlib

/-!
Shallow embedding of `dpe/src/crypto.rs` (caliptra-dpe): the cryptographic
abstraction boundary of a DICE-style attestation engine.  Byte buffers are
`List Nat` with each element implicitly `< 256`; Rust `Result` is `Except`;
a Rust panic (out-of-bounds slice, `copy_from_slice` length mismatch) is
modelled as `Option.none` in the result.
-/

deriving instance DecidableEq for Except

namespace DpeCrypto

/-- Modelled from the spec: the profile enumeration lives in the dpe crate
root (`DpeProfile`, not under the available sources); its two variants and
the accessor names are visible in `crypto.rs`, and the spec fixes a
256-bit-class and a 384-bit-class profile. -/
inductive DpeProfile where
  | P256Sha256
  | P384Sha384
deriving DecidableEq, Repr

/-- Modelled from the spec: the profile parameter table (spec 4.1) maps the
256-bit-class profile to a 32-byte elliptic-curve integer and the
384-bit-class profile to a 48-byte one. -/
def DpeProfile.get_ecc_int_size : DpeProfile → Nat
  | .P256Sha256 => 32
  | .P384Sha384 => 48

/-- Modelled from the spec: digest size matched to the profile class
(spec 4.1). -/
def DpeProfile.get_hash_size : DpeProfile → Nat
  | .P256Sha256 => 32
  | .P384Sha384 => 48

/-- Modelled from the spec: base-secret (CDI) byte length prescribed by the
profile table (spec 4.1); the exact value is not pinned by the spec, the
code only uses it as the length of the zero-filled test base secret. -/
def DpeProfile.get_cdi_size : DpeProfile → Nat
  | .P256Sha256 => 32
  | .P384Sha384 => 48

/-- Modelled from the spec: the error type `DpeErrorCode` lives in
`response.rs` (not under the available sources); the spec (sections 6 and 7)
describes a closed error taxonomy of which only `InternalError` is surfaced
by this module. -/
inductive DpeErrorCode where
  | InternalError
  | InvalidCommand
  | InvalidArgument
deriving DecidableEq, Repr

/-- Rust `dst[start..start+src.len()].copy_from_slice(&src)`: writes `src`
into `dst` at `start`; panics (`none`) when the range is out of bounds. -/
def copyFromSlice (dst : List Nat) (start : Nat) (src : List Nat) :
    Option (List Nat) :=
  if start + src.length ≤ dst.length then
    some (dst.take start ++ src ++ dst.drop (start + src.length))
  else
    none

/-- An ECDSA signature (`crypto.rs` lines 11-14): `r` and `s` are byte
arrays of type `[u8; DPE_PROFILE.get_ecc_int_size()]`, so their lengths are
fixed by the build-time profile constant `gp` (the embedding of the crate's
`DPE_PROFILE` global), not by any per-call argument. -/
structure EcdsaSignature (gp : DpeProfile) where
  r : List Nat
  s : List Nat
  hr : r.length = gp.get_ecc_int_size
  hs : s.length = gp.get_ecc_int_size

/-- An ECDSA public key (`crypto.rs` lines 26-29): `x` and `y` are byte
arrays sized by the build-time profile constant `gp`. -/
structure EcdsaPub (gp : DpeProfile) where
  x : List Nat
  y : List Nat
  hx : x.length = gp.get_ecc_int_size
  hy : y.length = gp.get_ecc_int_size

/-- Embeds `EcdsaPub::default()` (`crypto.rs` lines 47-54): zero-filled
coordinates. -/
def EcdsaPub.default (gp : DpeProfile) : EcdsaPub gp :=
  ⟨List.replicate gp.get_ecc_int_size 0, List.replicate gp.get_ecc_int_size 0,
   List.length_replicate _ _, List.length_replicate _ _⟩

/-- Embeds `core::mem::size_of::<EcdsaPub>()`: two `u8` arrays of
`gp.get_ecc_int_size()` elements each, no padding. -/
def sizeOfEcdsaPub (gp : DpeProfile) : Nat :=
  2 * gp.get_ecc_int_size

/-- Embeds `EcdsaPub::serialize` (`crypto.rs` lines 32-44).  Returns the final
state of `dst` together with the Rust return value; `none` would be a
panic in one of the two `copy_from_slice` calls. -/
def EcdsaPub.serialize {gp : DpeProfile} (k : EcdsaPub gp) (dst : List Nat) :
    Option (List Nat × Except DpeErrorCode Nat) :=
  if dst.length < sizeOfEcdsaPub gp then
    some (dst, .error .InternalError)
  else
    match copyFromSlice dst 0 k.x with
    | none => none
    | some d1 =>
      match copyFromSlice d1 k.x.length k.y with
      | none => none
      | some d2 => some (d2, .ok (k.x.length + k.y.length))

/-- Embeds the `openssl::hash::MessageDigest` selector, as used by
`DeterministicCrypto::get_digest` (`crypto.rs` lines 177-182). -/
inductive MessageDigest where
  | sha256
  | sha384
deriving DecidableEq, Repr

/-- Embeds the `openssl::nid::Nid` curve selector, as used by
`DeterministicCrypto::get_curve` (`crypto.rs` lines 184-189). -/
inductive Nid where
  | X9_62_PRIME256V1
  | SECP384R1
deriving DecidableEq, Repr

/-- Backend-specific error value of the OpenSSL provider; it never crosses
the contract boundary unmapped. -/
structure OpensslError where
  code : Nat
deriving DecidableEq, Repr

/-- An elliptic-curve point as returned by the provider: a pair of
coordinate byte strings. -/
structure EcPoint where
  x : List Nat
  y : List Nat
deriving DecidableEq, Repr

/-- A raw provider signature: the byte strings `sig.r().to_vec()` and
`sig.s().to_vec()`. -/
structure OsslSig where
  r : List Nat
  s : List Nat
deriving DecidableEq, Repr

/-- Modelled from the spec: the `ossl_crypto` provider crate
(`OpensslCrypto`/`OpensslHasher` internals) is not under the available
sources; per spec section 6 it is an opaque, swappable collaborator of
which only the observable success/failure and output shape matter, so it
is embedded as a bundle of abstract functions.  `digestFn` is the digest
of the accumulated stream; the remaining fields mirror the `OpensslCrypto`
entry points called from `crypto.rs`. -/
structure OpensslProvider where
  newHasher : MessageDigest → Except OpensslError Unit
  digestFn : MessageDigest → List Nat → List Nat
  derive_cdi : List Nat → List Nat → List Nat → MessageDigest →
    Except OpensslError (List Nat)
  derive_ecdsa_pub : List Nat → List Nat → List Nat → MessageDigest → Nid →
    Except OpensslError EcPoint
  ecdsa_sign_with_alias : List Nat → List Nat → Nid →
    Except OpensslError OsslSig

/-- Modelled from the spec: the running hash state (spec 4.2) accumulates
the chunks passed to update; finish computes the digest of the
accumulation. -/
structure OpensslHasher where
  md : MessageDigest
  data : List Nat
deriving DecidableEq, Repr

/-- Embeds `OpensslHasher::new(md)`: may fail in the provider; on success the
accumulated stream is empty. -/
def OpensslHasher.new (pr : OpensslProvider) (md : MessageDigest) :
    Except OpensslError OpensslHasher :=
  match pr.newHasher md with
  | .error e => .error e
  | .ok _ => .ok ⟨md, []⟩

/-- Modelled from the spec: update appends a chunk to the running
computation and never partially applies a chunk (spec 4.2); the
environmental failure mode (resource exhaustion) is outside the
deterministic model. -/
def OpensslHasher.update (h : OpensslHasher) (bytes : List Nat) :
    OpensslHasher :=
  ⟨h.md, h.data ++ bytes⟩

/-- Modelled from the spec: finish writes the digest of the accumulated
stream into the destination and fails if the destination is undersized
(spec 4.2). -/
def OpensslHasher.finish (pr : OpensslProvider) (h : OpensslHasher)
    (dst : List Nat) : Except OpensslError (List Nat) :=
  let dg := pr.digestFn h.md h.data
  if dst.length < dg.length then .error ⟨1⟩
  else .ok (dg ++ dst.drop dg.length)

/-- Embeds `TestHasher` (`crypto.rs` line 157): a newtype over the provider
hasher. -/
structure TestHasher where
  inner : OpensslHasher
deriving DecidableEq, Repr

/-- Embeds `Hasher::update` for `TestHasher` (`crypto.rs` lines 160-164): delegates
and maps any provider error to `InternalError`. -/
def TestHasher.update (h : TestHasher) (bytes : List Nat) :
    Except DpeErrorCode TestHasher :=
  .ok ⟨h.inner.update bytes⟩

/-- Embeds `Hasher::finish` for `TestHasher` (`crypto.rs` lines 166-170): delegates
and maps any provider error to `InternalError`. -/
def TestHasher.finish (pr : OpensslProvider) (h : TestHasher)
    (dst : List Nat) : Except DpeErrorCode (List Nat) :=
  match h.inner.finish pr dst with
  | .error _ => .error .InternalError
  | .ok out => .ok out

/-- The `Hasher` trait (`crypto.rs` lines 56-73) as a bundle of operations
over an abstract state type `H`; `finish` consumes the state by taking it
as its (by-value) argument. -/
structure Hasher (H : Type) where
  update : H → List Nat → Except DpeErrorCode H
  finish : H → List Nat → Except DpeErrorCode (List Nat)

/-- The hashing surface of the `Crypto` trait (`crypto.rs` lines 75-148)
over an abstract hasher state type `H`; `rand_bytes` is included as the
other buffer-filling obligation.  The remaining items (`derive_cdi`,
`derive_ecdsa_pub`, `ecdsa_sign_with_alias`) are embedded for the concrete
`DeterministicCrypto` backend below. -/
structure Crypto (H : Type) where
  hasher : Hasher H
  rand_bytes : List Nat → Except DpeErrorCode (List Nat)
  hash_initialize : DpeProfile → Except DpeErrorCode H

/-- The provided default body of `Crypto::hash` (`crypto.rs` lines 94-98):
initialize with the profile, update once, finish into the destination. -/
def Crypto.hash {H : Type} (c : Crypto H) (profile : DpeProfile)
    (bytes digest : List Nat) : Except DpeErrorCode (List Nat) := do
  let h ← c.hash_initialize profile
  let h ← c.hasher.update h bytes
  c.hasher.finish h digest

/-- Embeds `DeterministicCrypto::get_digest` (`crypto.rs` lines 177-182). -/
def get_digest : DpeProfile → MessageDigest
  | .P256Sha256 => .sha256
  | .P384Sha384 => .sha384

/-- Embeds `DeterministicCrypto::get_curve` (`crypto.rs` lines 184-189). -/
def get_curve : DpeProfile → Nid
  | .P256Sha256 => .X9_62_PRIME256V1
  | .P384Sha384 => .SECP384R1

namespace DeterministicCrypto

/-- Embeds `DeterministicCrypto::rand_bytes` (`crypto.rs` lines 198-203): writes
`(i + 1) as u8` into every position of the destination. -/
def rand_bytes (dst : List Nat) : Except DpeErrorCode (List Nat) :=
  .ok ((List.range dst.length).map fun i => (i + 1) % 256)

/-- Embeds `DeterministicCrypto::hash_initialize` (`crypto.rs` lines 205-210). -/
def hash_initialize (pr : OpensslProvider) (profile : DpeProfile) :
    Except DpeErrorCode TestHasher :=
  match OpensslHasher.new pr (get_digest profile) with
  | .error _ => .error .InternalError
  | .ok h => .ok ⟨h⟩

/-- The `Crypto` instance for `DeterministicCrypto` (`crypto.rs` lines
192-210), restricted to the hashing surface. -/
def impl (pr : OpensslProvider) : Crypto TestHasher where
  hasher :=
    { update := TestHasher.update
      finish := TestHasher.finish pr }
  rand_bytes := rand_bytes
  hash_initialize := hash_initialize pr

/-- Embeds `DeterministicCrypto::derive_cdi` (`crypto.rs` lines 212-222): derives
from an all-zero base CDI of the profile's CDI size. -/
def derive_cdi (pr : OpensslProvider) (profile : DpeProfile)
    (measurement_digest info : List Nat) : Except DpeErrorCode (List Nat) :=
  let md := get_digest profile
  let base_cdi := List.replicate profile.get_cdi_size 0
  match pr.derive_cdi base_cdi measurement_digest info md with
  | .error _ => .error .InternalError
  | .ok cdi => .ok cdi

/-- Embeds `DeterministicCrypto::derive_ecdsa_pub` (`crypto.rs` lines 224-240):
the two `copy_from_slice` calls into the `DPE_PROFILE`-sized default key
panic (`none`) when the provider point coordinates have a different
length. -/
def derive_ecdsa_pub (gp : DpeProfile) (pr : OpensslProvider)
    (profile : DpeProfile) (cdi label info : List Nat) :
    Option (Except DpeErrorCode (EcdsaPub gp)) :=
  let md := get_digest profile
  let nid := get_curve profile
  match pr.derive_ecdsa_pub cdi label info md nid with
  | .error _ => some (.error .InternalError)
  | .ok point =>
    if hx : point.x.length = gp.get_ecc_int_size then
      if hy : point.y.length = gp.get_ecc_int_size then
        some (.ok ⟨point.x, point.y, hx, hy⟩)
      else none
    else none

/-- Embeds `DeterministicCrypto::ecdsa_sign_with_alias` (`crypto.rs` lines
242-255): signs with an all-zero private key; the `copy_from_slice` calls
into the `DPE_PROFILE`-sized default signature panic (`none`) when the
provider components have a different length. -/
def ecdsa_sign_with_alias (gp : DpeProfile) (pr : OpensslProvider)
    (profile : DpeProfile) (digest : List Nat) :
    Option (Except DpeErrorCode (EcdsaSignature gp)) :=
  let nid := get_curve profile
  let priv_bytes := List.replicate profile.get_ecc_int_size 0
  match pr.ecdsa_sign_with_alias digest priv_bytes nid with
  | .error _ => some (.error .InternalError)
  | .ok sig =>
    if hr : sig.r.length = gp.get_ecc_int_size then
      if hs : sig.s.length = gp.get_ecc_int_size then
        some (.ok ⟨sig.r, sig.s, hr, hs⟩)
      else none
    else none

end DeterministicCrypto

/-- Modelled from the spec: the one-shot hash "defined purely in terms of
4.2: initialize with the profile, update once with the full input, finish
into the output" (spec 4.3), written from the spec's words to be compared
against the source's default body `Crypto.hash`. -/
def hashSpec {H : Type} (c : Crypto H) (profile : DpeProfile)
    (bytes digest : List Nat) : Except DpeErrorCode (List Nat) :=
  match c.hash_initialize profile with
  | .error e => .error e
  | .ok h =>
    match c.hasher.update h bytes with
    | .error e => .error e
    | .ok h2 => c.hasher.finish h2 digest

/-- Holds when a contract result is either a success or the single
surfaced error `InternalError`. -/
def onlyInternal {α : Type} : Except DpeErrorCode α → Prop
  | .error e => e = .InternalError
  | .ok _ => True

/-- Predicate `onlyInternal` lifted over the panic layer. -/
def onlyInternalPanic {α : Type} : Option (Except DpeErrorCode α) → Prop
  | none => True
  | some r => onlyInternal r

/-- Predicate `onlyInternal` lifted over the panic layer and the returned buffer of
`serialize`. -/
def onlyInternalSer {α : Type} :
    Option (List Nat × Except DpeErrorCode α) → Prop
  | none => True
  | some r => onlyInternal r.2

/-- A concrete all-succeeding provider whose point coordinates are 32
bytes, used to instantiate theorems at the 256-bit-class profile. -/
def trivialProvider : OpensslProvider where
  newHasher := fun _ => .ok ()
  digestFn := fun _ data => [data.length % 256]
  derive_cdi := fun base m i _ => .ok (base ++ m ++ i)
  derive_ecdsa_pub := fun _ _ _ _ _ =>
    .ok ⟨List.replicate 32 1, List.replicate 32 2⟩
  ecdsa_sign_with_alias := fun _ _ _ =>
    .ok ⟨List.replicate 32 3, List.replicate 32 4⟩

/-- A concrete provider whose point coordinates are 48 bytes — the shape a
real provider produces on the 384-bit curve. -/
def pr384 : OpensslProvider where
  newHasher := fun _ => .ok ()
  digestFn := fun _ data => [data.length % 256]
  derive_cdi := fun base m i _ => .ok (base ++ m ++ i)
  derive_ecdsa_pub := fun _ _ _ _ _ =>
    .ok ⟨List.replicate 48 1, List.replicate 48 2⟩
  ecdsa_sign_with_alias := fun _ _ _ =>
    .ok ⟨List.replicate 48 3, List.replicate 48 4⟩

/-- A concrete public key under the 256-bit-class build profile. -/
def kP256 : EcdsaPub .P256Sha256 :=
  ⟨List.replicate 32 1, List.replicate 32 2,
   List.length_replicate _ _, List.length_replicate _ _⟩

/-- Shared helper: on a large-enough destination, `serialize` writes
`x ++ y` at offset 0, keeps the tail, and returns the number of bytes
written. -/
theorem serialize_eq_of_le {gp : DpeProfile} (k : EcdsaPub gp)
    (dst : List Nat) (h : sizeOfEcdsaPub gp ≤ dst.length) :
    k.serialize dst =
      some (k.x ++ k.y ++ dst.drop (sizeOfEcdsaPub gp),
        .ok (sizeOfEcdsaPub gp)) := by
  have hx := k.hx
  have hy := k.hy
  have hnn : sizeOfEcdsaPub gp = k.x.length + k.y.length := by
    simp only [sizeOfEcdsaPub, hx, hy]
    omega
  rw [hnn] at h ⊢
  simp only [EcdsaPub.serialize, copyFromSlice]
  rw [if_neg (by omega)]
  rw [if_pos (by omega)]
  simp only [List.take_zero, List.nil_append, Nat.zero_add]
  rw [if_pos (by simp only [List.length_append, List.length_drop]; omega)]
  have htake : (k.x ++ dst.drop k.x.length).take k.x.length = k.x :=
    List.take_left _ _
  have hdrop :
      (k.x ++ dst.drop k.x.length).drop (k.x.length + k.y.length) =
        dst.drop (k.x.length + k.y.length) := by
    rw [← List.drop_drop, List.drop_left, List.drop_drop]
  rw [htake, hdrop]

/-- C1: for every public key and every destination buffer strictly
shorter than the two concatenated coordinates (2 × the elliptic-curve
integer size), `EcdsaPub::serialize` returns `Err(InternalError)` and the
destination is unchanged. -/
theorem C1_serialize_undersized {gp : DpeProfile} (k : EcdsaPub gp)
    (dst : List Nat) (h : dst.length < sizeOfEcdsaPub gp) :
    k.serialize dst = some (dst, .error .InternalError) := by
  simp only [EcdsaPub.serialize]
  rw [if_pos h]

/-- Witness for C1 at a concrete key and a 2-byte destination. -/
theorem C1_witness :
    ([7, 7] : List Nat).length < sizeOfEcdsaPub .P256Sha256 ∧
    kP256.serialize [7, 7] = some ([7, 7], .error .InternalError) :=
  ⟨by decide, C1_serialize_undersized kP256 [7, 7] (by decide)⟩

/-- C5: for every public key and every destination of length at least
2 × the elliptic-curve integer size, `serialize` succeeds, writes the flat
concatenation x‖y at offset 0 (keeping the tail), and returns `Ok` with
the number of bytes written, which equals 2 × the profile's
elliptic-curve integer size. -/
theorem C5_serialize_ok {gp : DpeProfile} (k : EcdsaPub gp)
    (dst : List Nat) (h : sizeOfEcdsaPub gp ≤ dst.length) :
    k.serialize dst =
      some (k.x ++ k.y ++ dst.drop (sizeOfEcdsaPub gp),
        .ok (sizeOfEcdsaPub gp)) ∧
    sizeOfEcdsaPub gp = 2 * gp.get_ecc_int_size :=
  ⟨serialize_eq_of_le k dst h, rfl⟩

/-- Witness for C5 at a concrete key and a 64-byte destination. -/
theorem C5_witness :
    sizeOfEcdsaPub .P256Sha256 ≤ (List.replicate 64 9 : List Nat).length ∧
    kP256.serialize (List.replicate 64 9) =
      some (kP256.x ++ kP256.y ++
          (List.replicate 64 9 : List Nat).drop (sizeOfEcdsaPub .P256Sha256),
        .ok (sizeOfEcdsaPub .P256Sha256)) :=
  ⟨by decide, (C5_serialize_ok kP256 (List.replicate 64 9) (by decide)).1⟩

/-- C10: under the size precondition, `serialize` never panics (all slice
accesses are in bounds), preserves the destination length, and leaves
every byte at index ≥ 2 × the elliptic-curve integer size unchanged. -/
theorem C10_serialize_frame {gp : DpeProfile} (k : EcdsaPub gp)
    (dst : List Nat) (h : sizeOfEcdsaPub gp ≤ dst.length) :
    (k.serialize dst).isSome = true ∧
    ∀ out r, k.serialize dst = some (out, r) →
      out.length = dst.length ∧
      ∀ i, sizeOfEcdsaPub gp ≤ i → out[i]? = dst[i]? := by
  have heq := serialize_eq_of_le k dst h
  have hx := k.hx
  have hy := k.hy
  have hsz : sizeOfEcdsaPub gp = 2 * gp.get_ecc_int_size := rfl
  refine ⟨by rw [heq]; rfl, ?_⟩
  intro out r hsr
  rw [heq] at hsr
  have hout : k.x ++ k.y ++ dst.drop (sizeOfEcdsaPub gp) = out :=
    (Prod.mk.injEq _ _ _ _ ▸ Option.some.inj hsr).1
  subst hout
  constructor
  · simp only [List.length_append, List.length_drop]
    omega
  · intro i hi
    rw [List.append_assoc, List.getElem?_append_right (by omega),
      List.getElem?_append_right (by omega), List.getElem?_drop]
    congr 1
    omega

/-- Witness for C10 at a concrete key and a 65-byte destination. -/
theorem C10_witness :
    (kP256.serialize (List.replicate 65 9)).isSome = true ∧
    (kP256.x ++ kP256.y ++ [9]).length =
      (List.replicate 65 9 : List Nat).length ∧
    (kP256.x ++ kP256.y ++ [9])[64]? =
      (List.replicate 65 9 : List Nat)[64]? := by
  have h := C10_serialize_frame kP256 (List.replicate 65 9) (by decide)
  refine ⟨h.1, ?_, ?_⟩
  · exact (h.2 (kP256.x ++ kP256.y ++ [9]) (.ok 64) (by decide)).1
  · exact (h.2 (kP256.x ++ kP256.y ++ [9]) (.ok 64) (by decide)).2 64
      (by decide)

/-- C2: for every backend, profile, input and digest buffer, the default
`Crypto::hash` equals the spec's composition `hash_initialize`, then one
`update` with the full input, then `finish`: same `Result`, same digest
buffer state. -/
theorem C2_hash_default {H : Type} (c : Crypto H) (profile : DpeProfile)
    (bytes digest : List Nat) :
    c.hash profile bytes digest = hashSpec c profile bytes digest := by
  unfold Crypto.hash hashSpec
  generalize c.hash_initialize profile = x
  cases x with
  | error e => rfl
  | ok h =>
    show (c.hasher.update h bytes >>= fun h => c.hasher.finish h digest) =
      match c.hasher.update h bytes with
      | .error e => .error e
      | .ok h2 => c.hasher.finish h2 digest
    generalize c.hasher.update h bytes = y
    cases y with
    | error e => rfl
    | ok h2 => rfl

/-- C3: for every provider, profile, split A‖B of the input and digest
buffer, initialize-update(A)-update(B)-finish on the deterministic test
backend yields exactly the one-shot `hash` of the concatenation A ++ B. -/
theorem C3_streaming_equivalence (pr : OpensslProvider)
    (profile : DpeProfile) (A B dst : List Nat) :
    (do
      let h ← Crypto.hash_initialize (DeterministicCrypto.impl pr) profile
      let h1 ← (DeterministicCrypto.impl pr).hasher.update h A
      let h2 ← (DeterministicCrypto.impl pr).hasher.update h1 B
      (DeterministicCrypto.impl pr).hasher.finish h2 dst)
      = (DeterministicCrypto.impl pr).hash profile (A ++ B) dst := by
  simp only [DeterministicCrypto.impl, Crypto.hash,
    DeterministicCrypto.hash_initialize, OpensslHasher.new]
  cases hn : pr.newHasher (get_digest profile) with
  | error e => rfl
  | ok u =>
    simp only [TestHasher.update, OpensslHasher.update, TestHasher.finish,
      OpensslHasher.finish, List.nil_append, List.append_assoc]
    rfl

/-- C6: the deterministic test backend's `derive_cdi` and
`derive_ecdsa_pub` are deterministic: two invocations on equal input
tuples return equal results. -/
theorem C6_determinism (pr : OpensslProvider) :
    (∀ (p p' : DpeProfile) (m m' i i' : List Nat),
      p = p' → m = m' → i = i' →
      DeterministicCrypto.derive_cdi pr p m i =
        DeterministicCrypto.derive_cdi pr p' m' i') ∧
    (∀ (gp p p' : DpeProfile) (c c' l l' i i' : List Nat),
      p = p' → c = c' → l = l' → i = i' →
      DeterministicCrypto.derive_ecdsa_pub gp pr p c l i =
        DeterministicCrypto.derive_ecdsa_pub gp pr p' c' l' i') := by
  constructor
  · intro p p' m m' i i' hp hm hi
    subst hp
    subst hm
    subst hi
    rfl
  · intro gp p p' c c' l l' i i' hp hc hl hi
    subst hp
    subst hc
    subst hl
    subst hi
    rfl

/-- Witness for C6 at a concrete provider and concrete derivation
inputs. -/
theorem C6_witness :
    DeterministicCrypto.derive_cdi trivialProvider .P256Sha256 [3] [4] =
      DeterministicCrypto.derive_cdi trivialProvider .P256Sha256 [3] [4] ∧
    DeterministicCrypto.derive_ecdsa_pub .P256Sha256 trivialProvider
        .P256Sha256 [1] [2] [3] =
      DeterministicCrypto.derive_ecdsa_pub .P256Sha256 trivialProvider
        .P256Sha256 [1] [2] [3] :=
  ⟨(C6_determinism trivialProvider).1 _ _ _ _ _ _ rfl rfl rfl,
   (C6_determinism trivialProvider).2 _ _ _ _ _ _ _ _ _ rfl rfl rfl rfl⟩

/-- Shared helper: `TestHasher::finish` surfaces only `InternalError`. -/
theorem onlyInternal_finish (pr : OpensslProvider) (h : TestHasher)
    (dst : List Nat) : onlyInternal (TestHasher.finish pr h dst) := by
  unfold TestHasher.finish
  split <;> simp [onlyInternal]

/-- C7: every error value ever returned by an operation of the contract
(serialize, update, finish, hash, hash_initialize, rand_bytes,
derive_cdi, derive_ecdsa_pub, ecdsa_sign_with_alias) is the single
variant `InternalError`; provider-specific error values never cross the
boundary. -/
theorem C7_single_error_kind :
    (∀ (gp : DpeProfile) (k : EcdsaPub gp) (dst : List Nat),
      onlyInternalSer (k.serialize dst)) ∧
    (∀ (h : TestHasher) (bytes : List Nat),
      onlyInternal (TestHasher.update h bytes)) ∧
    (∀ (pr : OpensslProvider) (h : TestHasher) (dst : List Nat),
      onlyInternal (TestHasher.finish pr h dst)) ∧
    (∀ (pr : OpensslProvider) (profile : DpeProfile) (bytes dst : List Nat),
      onlyInternal ((DeterministicCrypto.impl pr).hash profile bytes dst)) ∧
    (∀ (pr : OpensslProvider) (profile : DpeProfile),
      onlyInternal ( DeterministicCrypto.hash_initialize pr profile)) ∧
    (∀ dst : List Nat, onlyInternal (DeterministicCrypto.rand_bytes dst)) ∧
    (∀ (pr : OpensslProvider) (p : DpeProfile) (m i : List Nat),
      onlyInternal (DeterministicCrypto.derive_cdi pr p m i)) ∧
    (∀ (gp : DpeProfile) (pr : OpensslProvider) (p : DpeProfile)
      (c l i : List Nat),
      onlyInternalPanic
        (DeterministicCrypto.derive_ecdsa_pub gp pr p c l i)) ∧
    (∀ (gp : DpeProfile) (pr : OpensslProvider) (p : DpeProfile)
      (d : List Nat),
      onlyInternalPanic
        (DeterministicCrypto.ecdsa_sign_with_alias gp pr p d)) := by
  refine ⟨?_, ?_, ?_, ?_, ?_, ?_, ?_, ?_, ?_⟩
  · intro gp k dst
    unfold EcdsaPub.serialize
    split
    · simp [onlyInternalSer, onlyInternal]
    · split
      · simp [onlyInternalSer]
      · split
        · simp [onlyInternalSer]
        · simp [onlyInternalSer, onlyInternal]
  · intro h bytes
    simp [TestHasher.update, onlyInternal]
  · intro pr h dst
    exact onlyInternal_finish pr h dst
  · intro pr profile bytes dst
    simp only [Crypto.hash, DeterministicCrypto.impl,
      DeterministicCrypto.hash_initialize, OpensslHasher.new]
    generalize pr.newHasher (get_digest profile) = x
    cases x with
    | error e => exact rfl
    | ok u => exact onlyInternal_finish pr _ dst
  · intro pr profile
    unfold DeterministicCrypto.hash_initialize OpensslHasher.new
    generalize pr.newHasher (get_digest profile) = x
    cases x <;> simp [onlyInternal]
  · intro dst
    simp [DeterministicCrypto.rand_bytes, onlyInternal]
  · intro pr p m i
    simp only [DeterministicCrypto.derive_cdi]
    generalize pr.derive_cdi (List.replicate p.get_cdi_size 0) m i
      (get_digest p) = x
    cases x <;> simp [onlyInternal]
  · intro gp pr p c l i
    simp only [DeterministicCrypto.derive_ecdsa_pub]
    split
    · simp [onlyInternalPanic, onlyInternal]
    · split
      · split
        · simp [onlyInternalPanic, onlyInternal]
        · simp [onlyInternalPanic]
      · simp [onlyInternalPanic]
  · intro gp pr p d
    simp only [DeterministicCrypto.ecdsa_sign_with_alias]
    split
    · simp [onlyInternalPanic, onlyInternal]
    · split
      · split
        · simp [onlyInternalPanic, onlyInternal]
        · simp [onlyInternalPanic]
      · simp [onlyInternalPanic]

/-- C4 counterexample: at the 384-bit-class call profile (build profile
P256Sha256), the provider succeeds with coordinates of exactly the passed
profile's size (48 bytes), yet `derive_ecdsa_pub` panics in
`copy_from_slice` (returns `none`) instead of returning a key of the
passed profile's size: the field sizes come from the build-time global
`DPE_PROFILE`, not the per-call profile. -/
theorem C4_counterexample :
    DeterministicCrypto.derive_ecdsa_pub .P256Sha256 pr384 .P384Sha384
        [] [] [] = none ∧
    pr384.derive_ecdsa_pub [] [] [] (get_digest .P384Sha384)
        (get_curve .P384Sha384) =
      .ok ⟨List.replicate 48 1, List.replicate 48 2⟩ ∧
    (List.replicate 48 1 : List Nat).length =
      DpeProfile.P384Sha384.get_ecc_int_size :=
  ⟨rfl, rfl, by decide⟩

/-- C4 (amended): every key returned by `derive_ecdsa_pub` and every
signature returned by `ecdsa_sign_with_alias` has component lengths equal
to the build-time profile constant's elliptic-curve integer size; these
equal the passed profile's size exactly when the passed profile is the
build-time one. -/
theorem C4_sizes_global (gp : DpeProfile) (pr : OpensslProvider)
    (profile : DpeProfile) :
    (∀ (cdi label info : List Nat) (k : EcdsaPub gp),
      DeterministicCrypto.derive_ecdsa_pub gp pr profile cdi label info =
        some (.ok k) →
      k.x.length = gp.get_ecc_int_size ∧
      k.y.length = gp.get_ecc_int_size ∧
      (profile = gp →
        k.x.length = profile.get_ecc_int_size ∧
        k.y.length = profile.get_ecc_int_size)) ∧
    (∀ (digest : List Nat) (s : EcdsaSignature gp),
      DeterministicCrypto.ecdsa_sign_with_alias gp pr profile digest =
        some (.ok s) →
      s.r.length = gp.get_ecc_int_size ∧
      s.s.length = gp.get_ecc_int_size ∧
      (profile = gp →
        s.r.length = profile.get_ecc_int_size ∧
        s.s.length = profile.get_ecc_int_size)) := by
  constructor
  · intro cdi label info k _
    refine ⟨k.hx, k.hy, ?_⟩
    intro hp
    subst hp
    exact ⟨k.hx, k.hy⟩
  · intro digest s _
    refine ⟨s.hr, s.hs, ?_⟩
    intro hp
    subst hp
    exact ⟨s.hr, s.hs⟩

/-- Witness for the amended C4 at the build profile with a conforming
32-byte provider. -/
theorem C4_sizes_global_witness :
    kP256.x.length = DpeProfile.P256Sha256.get_ecc_int_size ∧
    kP256.y.length = DpeProfile.P256Sha256.get_ecc_int_size :=
  ⟨((C4_sizes_global .P256Sha256 trivialProvider .P256Sha256).1
      [] [] [] kP256 rfl).1,
   ((C4_sizes_global .P256Sha256 trivialProvider .P256Sha256).1
      [] [] [] kP256 rfl).2.1⟩

/-- C8: the deterministic test backend's `rand_bytes` always succeeds and
fills every position `i` of the destination with `(i + 1) mod 256`,
preserving the buffer length exactly (nothing past the end, nothing left
unwritten). -/
theorem C8_rand_bytes_fills (dst : List Nat) :
    (DeterministicCrypto.rand_bytes dst).isOk = true ∧
    ∀ out, DeterministicCrypto.rand_bytes dst = .ok out →
      out.length = dst.length ∧
      ∀ i, i < dst.length → out[i]? = some ((i + 1) % 256) := by
  refine ⟨rfl, ?_⟩
  intro out hout
  have ho : ((List.range dst.length).map fun i => (i + 1) % 256) = out := by
    simpa only [DeterministicCrypto.rand_bytes, Except.ok.injEq] using hout
  subst ho
  refine ⟨by simp, ?_⟩
  intro i hi
  rw [List.getElem?_map, List.getElem?_range hi]
  rfl

/-- Witness for C8 at a concrete 3-byte destination. -/
theorem C8_witness :
    (DeterministicCrypto.rand_bytes [7, 7, 7]).isOk = true ∧
    ([1, 2, 3] : List Nat).length = ([7, 7, 7] : List Nat).length ∧
    ([1, 2, 3] : List Nat)[1]? = some ((1 + 1) % 256) := by
  have h := C8_rand_bytes_fills [7, 7, 7]
  exact ⟨h.1, (h.2 [1, 2, 3] (by decide)).1,
    (h.2 [1, 2, 3] (by decide)).2 1 (by decide)⟩

end DpeCrypto
